import Mathlib

/-! Verification development for the autopg repository: a PostgreSQL
configuration calculator (`autopg/logic.py`, `autopg/postgres.py`,
`autopg/cli.py`) and a pgbouncer configuration generator
(`autopgpool/autopgpool/ini_writer.py`).

Modelling conventions for the shallow embedding:
- Python `str` is modelled as `List Char`; f-string interpolation is list
  concatenation.
- Python `int` is modelled as `Int`; `//` is `Int.fdiv`, `%` is `Int.fmod`
  (Python floor division / sign-of-divisor remainder), `int(x)` on a float
  truncates toward zero (`Int.tdiv` of numerator by denominator).
- Python `float` is modelled as `ℚ` (exact arithmetic); `math.ceil` is the
  rational ceiling.
- Python `None` is modelled with `Option`.
- A sequence of `f.write(...)` calls on an open file is modelled as the list
  of written strings, in order.
-/

namespace Autopg

/-! ## Python primitives: decimal rendering, int(), str.strip -/

/-- One decimal digit as a character: `0 ↦ '0', …, 9 ↦ '9'`. -/
def digitChar (d : Nat) : Char := Char.ofNat (48 + d)

/-- Fuel-indexed decimal rendering of a natural number (most significant digit
first).  The fuel makes the recursion structural so that the kernel can
evaluate it. -/
def natToCharsAux : Nat → Nat → List Char
  | 0, _ => []
  | fuel + 1, n =>
    if n < 10 then [digitChar n]
    else natToCharsAux fuel (n / 10) ++ [digitChar (n % 10)]

/-- Decimal rendering of a natural number: model of Python `str(n)` for
`n ≥ 0`.  The fuel `n + 1` always suffices since the recursion argument
strictly decreases. -/
def natToChars (n : Nat) : List Char := natToCharsAux (n + 1) n

/-- Model of Python `str(i)` for an arbitrary integer. -/
def intToChars (i : Int) : List Char :=
  if i < 0 then '-' :: natToChars i.natAbs else natToChars i.toNat

/-- Numeric value of a list of decimal digit characters (most significant
first), as folded up by Python `int()`. -/
def digitsVal (cs : List Char) : Nat :=
  cs.foldl (fun a c => a * 10 + (c.toNat - 48)) 0

/-- Model of Python `int(s)` on a string of decimal digits: `none` models the
`ValueError` raised on malformed input.  (Python also accepts surrounding
whitespace and underscores between digits; those never occur in the strings
this development parses, so they are omitted from the model.) -/
def pyParseNat (cs : List Char) : Option Nat :=
  if cs ≠ [] ∧ cs.all (fun c => c.isDigit) then some (digitsVal cs) else none

/-- Model of Python `int(s)` including an optional leading sign. -/
def pyParseInt (cs : List Char) : Option Int :=
  match cs with
  | [] => none
  | c :: rest =>
    if c = '-' then (pyParseNat rest).map (fun n => -(n : Int))
    else if c = '+' then (pyParseNat rest).map (fun n => (n : Int))
    else (pyParseNat cs).map (fun n => (n : Int))

/-- Model of Python `s.strip(chars)`: remove characters belonging to `chs`
from both ends of `cs`. -/
def pyStripSet (cs : List Char) (chs : List Char) : List Char :=
  (((cs.dropWhile (· ∈ chs)).reverse.dropWhile (· ∈ chs))).reverse

/-! ## Embedding of `autopg/logic.py` -/

/-- Workload categories (`DB_TYPE_*` constants). -/
inductive DbType
  | web
  | oltp
  | dw
  | desktop
  | mixed
deriving DecidableEq, Repr

/-- Operating-system families (`OS_*` constants). -/
inductive OsType
  | linux
  | windows
  | mac
deriving DecidableEq, Repr

/-- Storage media (`HARD_DRIVE_*` constants). -/
inductive HdType
  | ssd
  | san
  | hdd
deriving DecidableEq, Repr

/-- Memory size units (keys of `SIZE_UNIT_MAP`). -/
inductive SizeUnit
  | kb
  | mb
  | gb
  | tb
deriving DecidableEq, Repr

/-- Bytes per unit (`SIZE_UNIT_MAP` in `logic.py`). -/
def SizeUnit.bytes : SizeUnit → Int
  | .kb => 1024
  | .mb => 1048576
  | .gb => 1073741824
  | .tb => 1099511627776

/-- The `Configuration` TypedDict of `logic.py` (the `state` of
`PostgresConfig`).  `db_version` is a Python float, modelled as `ℚ`. -/
structure Configuration where
  db_version : ℚ
  os_type : OsType
  db_type : DbType
  total_memory : Option Int
  total_memory_unit : SizeUnit
  cpu_num : Option Int
  connection_num : Option Int
  hd_type : HdType
deriving DecidableEq

/-- Model of `PostgresConfig.get_total_memory_in_bytes`. -/
def get_total_memory_in_bytes (cfg : Configuration) : Option Int :=
  cfg.total_memory.map (fun m => m * cfg.total_memory_unit.bytes)

/-- Model of `PostgresConfig.get_total_memory_in_kb`.  Python divides the byte
count by 1024 in float arithmetic; every unit multiplier is a multiple of
1024, so the quotient is exact and integral, and we model it as the exact
integer quotient. -/
def get_total_memory_in_kb (cfg : Configuration) : Option Int :=
  (get_total_memory_in_bytes cfg).map (fun b => b.fdiv 1024)

/-- Model of `PostgresConfig.get_max_connections`.  The source guards with
`if self.state['connection_num']:`, so the value `0` is treated like `None`
(Python falsiness). -/
def get_max_connections (cfg : Configuration) : Int :=
  match cfg.connection_num with
  | some n =>
    if n = 0 then
      match cfg.db_type with
      | .web => 200
      | .oltp => 300
      | .dw => 40
      | .desktop => 20
      | .mixed => 100
    else n
  | none =>
    match cfg.db_type with
    | .web => 200
    | .oltp => 300
    | .dw => 40
    | .desktop => 20
    | .mixed => 100

/-- Model of `PostgresConfig.get_shared_buffers`.  The workload lambdas are
float floor-divisions (`x // 4`, `x // 16`, Python `//` on an exact integral
float), modelled by `Int.fdiv`; the Windows branch caps the value at
`(512 * MB) / KB = 524288`. -/
def get_shared_buffers (cfg : Configuration) : Option Int :=
  (get_total_memory_in_kb cfg).map (fun x =>
    let value : Int :=
      match cfg.db_type with
      | .web => x.fdiv 4
      | .oltp => x.fdiv 4
      | .dw => x.fdiv 4
      | .desktop => x.fdiv 16
      | .mixed => x.fdiv 4
    if cfg.db_version < 10 ∧ cfg.os_type = .windows then
      if value > 524288 then 524288 else value
    else value)

/-- Model of `math.ceil(c / 2)` for an integer `c`: the ceiling of `c / 2`
equals the floor of `(c + 1) / 2`. -/
def ceilHalf (c : Int) : Int := (c + 1).fdiv 2

/-- Model of `PostgresConfig.get_parallel_settings`: the returned list of
`{'key': …, 'value': …}` dictionaries, in order.  The guard
`not self.state['cpu_num'] or self.state['cpu_num'] < 4` treats `0` like
`None`. -/
def get_parallel_settings (cfg : Configuration) : List (String × Int) :=
  match cfg.cpu_num with
  | none => []
  | some c =>
    if c = 0 ∨ c < 4 then []
    else
      let workers_per_gather := ceilHalf c
      let workers_per_gather :=
        if cfg.db_type ≠ .dw ∧ workers_per_gather > 4 then 4 else workers_per_gather
      let config := [("max_worker_processes", c),
                     ("max_parallel_workers_per_gather", workers_per_gather)]
      let config :=
        if cfg.db_version ≥ 10 then config ++ [("max_parallel_workers", c)] else config
      if cfg.db_version ≥ 11 then
        let parallel_maintenance_workers := ceilHalf c
        let parallel_maintenance_workers :=
          if parallel_maintenance_workers > 4 then 4 else parallel_maintenance_workers
        config ++ [("max_parallel_maintenance_workers", parallel_maintenance_workers)]
      else config

/-- Model of the `for setting in parallel_settings: … break` loop in
`get_work_mem`: the first entry keyed `max_parallel_workers_per_gather`
supplies the worker count when positive; otherwise 1. -/
def parallel_workers_from : List (String × Int) → Int
  | [] => 1
  | (k, v) :: rest =>
    if k = "max_parallel_workers_per_gather" then (if v > 0 then v else 1)
    else parallel_workers_from rest

/-- The per-workload `work_mem_map` lambdas of `get_work_mem`. -/
def work_mem_scale (t : DbType) (x : ℚ) : ℚ :=
  match t with
  | .web => x
  | .oltp => x
  | .dw => x / 2
  | .desktop => x / 6
  | .mixed => x / 2

/-- Model of Python `int(x)` on a float: truncation toward zero. -/
def pyTrunc (q : ℚ) : Int := q.num.tdiv (q.den : Int)

/-- Model of `PostgresConfig.get_work_mem`. -/
def get_work_mem (cfg : Configuration) : Option Int :=
  match get_total_memory_in_kb cfg, get_shared_buffers cfg with
  | some memory_kb, some shared_buffers =>
    let max_connections := get_max_connections cfg
    let parallel_workers := parallel_workers_from (get_parallel_settings cfg)
    let work_mem : ℚ :=
      ((memory_kb : ℚ) - (shared_buffers : ℚ)) / ((max_connections : ℚ) * 3) /
        (parallel_workers : ℚ)
    some (max 64 (pyTrunc (work_mem_scale cfg.db_type work_mem)))
  | _, _ => none

/-- Model of `PostgresConfig.get_wal_buffers`.  `(3 * shared_buffers) // 100`
is integer floor division; `max_wal_buffer = int(16 * MB / KB) = 16384` and
`wal_buffer_near_value = int(14 * MB / KB) = 14336`. -/
def get_wal_buffers (cfg : Configuration) : Option Int :=
  (get_shared_buffers cfg).map (fun shared_buffers =>
    let value := (3 * shared_buffers).fdiv 100
    let max_wal_buffer : Int := 16384
    let value := if value > max_wal_buffer then max_wal_buffer else value
    let wal_buffer_near_value : Int := 14336
    let value :=
      if wal_buffer_near_value < value ∧ value < max_wal_buffer then max_wal_buffer
      else value
    if value < 32 then 32 else value)

/-! ## Embedding of `autopg/postgres.py` and the merge step of
`autopg/cli.py` -/

/-- Model of `format_kb_value` (`postgres.py`).  The unit quotients are
`SIZE_UNIT_MAP['GB'] // SIZE_UNIT_MAP['KB'] = 1048576` and
`SIZE_UNIT_MAP['MB'] // SIZE_UNIT_MAP['KB'] = 1024`. -/
def format_kb_value (value : Int) : List Char :=
  if value = 0 then "0kB".data
  else if value.fmod 1048576 = 0 then intToChars (value.fdiv 1048576) ++ "GB".data
  else if value.fmod 1024 = 0 then intToChars (value.fdiv 1024) ++ "MB".data
  else intToChars value ++ "kB".data

/-- Model of `parse_storage_value` (`postgres.py`): suffix dispatch via
`str.endswith`, then `str.strip` with the unit characters and `int()`.
`none` models the `ValueError` raised by `int()` on malformed input. -/
def parse_storage_value (value : List Char) : Option Int :=
  if "GB".data.isSuffixOf value then
    (pyParseInt (pyStripSet value "GB".data)).map (fun n => (n * 1073741824).fdiv 1024)
  else if "MB".data.isSuffixOf value then
    (pyParseInt (pyStripSet value "MB".data)).map (fun n => (n * 1048576).fdiv 1024)
  else pyParseInt (pyStripSet value "kB".data)

/-- Configuration values handled by `format_postgres_values` / `parse_value`
(`CONFIG_TYPES = int | float | str | bool`).  A Python float is carried
together with its `str()` rendering, which is all the formatter needs from
it. -/
inductive PgValue
  | vbool (b : Bool)
  | vint (n : Int)
  | vfloat (lit : List Char)
  | vstr (s : List Char)
deriving DecidableEq

/-- The single-quote character, written out to avoid quoting pitfalls. -/
def squote : Char := Char.ofNat 39

/-- Model of `format_value` (`postgres.py`). -/
def format_value : PgValue → List Char
  | .vbool b => if b then "true".data else "false".data
  | .vint n => intToChars n
  | .vfloat lit => lit
  | .vstr s => s

/-- The `KNOWN_STORAGE_VARS` list from `constants.py`. -/
def KNOWN_STORAGE_VARS : List String :=
  ["shared_buffers", "effective_cache_size", "maintenance_work_mem",
   "wal_buffers", "work_mem", "min_wal_size", "max_wal_size"]

/-- Per-key formatting step of `format_postgres_values` (`postgres.py`):
storage keys are rendered with `format_kb_value` and always single-quoted;
other values go through `format_value` and are single-quoted only when the
original value is a string.  `none` models the `TypeError` Python would raise
when a storage key holds a non-numeric value (a `bool` is an `int` in
Python). -/
def formatForKey (k : String) (v : PgValue) : Option (List Char) :=
  if KNOWN_STORAGE_VARS.contains k then
    match v with
    | .vint n => some (squote :: format_kb_value n ++ [squote])
    | .vbool b => some (squote :: format_kb_value (if b then 1 else 0) ++ [squote])
    | _ => none
  else
    match v with
    | .vstr s => some (squote :: s ++ [squote])
    | v => some (format_value v)

/-- A Python dict viewed extensionally, by lookup. -/
def PgDict := String → Option PgValue

/-- Lookup semantics of the Python merge `{**a, **b}` (`cli.py`,
`build_config`): a key present in `b` takes its value from `b`; only keys
absent from `b` fall back to `a`. -/
def pyDictMerge (a b : PgDict) : PgDict :=
  fun k =>
    match b k with
    | some v => some v
    | none => a k

/-- Model of `format_postgres_values` (`postgres.py`), per key. -/
def format_postgres_values (cfg : PgDict) : String → Option (List Char) :=
  fun k => (cfg k).bind (formatForKey k)

/-! ## Embedding of `autopgpool/autopgpool/ini_writer.py` -/

/-- The double-quote character, written out to avoid quoting pitfalls. -/
def dquote : Char := Char.ofNat 34

/-- Values accepted by `format_ini_value` (`ini_writer.py`).  The source also
falls back to `str(value)` for other Python objects and renders floats with
`str()`; those branches play no role in the claims and are omitted from the
model. -/
inductive IniValue
  | ibool (b : Bool)
  | iint (n : Int)
  | istr (s : List Char)
  | ilist (xs : List IniValue)
  | inone

mutual

/-- Model of `format_ini_value` (`ini_writer.py`): booleans as `1`/`0`,
numbers bare, strings wrapped in double quotes, lists joined with `", "`
(recursively formatted), `None` as the empty string. -/
def format_ini_value : IniValue → List Char
  | .ibool b => if b then "1".data else "0".data
  | .iint n => intToChars n
  | .istr s => dquote :: s ++ [dquote]
  | .ilist xs => format_ini_join xs
  | .inone => []

/-- Model of `", ".join(format_ini_value(item) for item in value)`. -/
def format_ini_join : List IniValue → List Char
  | [] => []
  | [x] => format_ini_value x
  | x :: y :: rest => format_ini_value x ++ ", ".data ++ format_ini_join (y :: rest)

end

/-- The key-value loop of `write_ini_file` for one section: each pair whose
formatted value is non-empty (Python truthiness of the string) contributes
one `key = value` line; empty values are skipped. -/
def ini_section_lines (items : List (String × IniValue)) : List (List Char) :=
  items.foldl
    (fun acc kv =>
      let formatted_value := format_ini_value kv.2
      if formatted_value ≠ [] then
        acc ++ [kv.1.data ++ " = ".data ++ formatted_value ++ "\n".data]
      else acc)
    []

/-- Model of `write_ini_file` (`ini_writer.py`): the ordered list of lines
written to the file — optional section comment, section header, the
key-value lines, and a blank line after each section. -/
def write_ini_file (config : List (String × List (String × IniValue)))
    (section_comments : String → Option (List Char)) : List (List Char) :=
  config.foldl
    (fun acc sec =>
      let commentLines :=
        match section_comments sec.1 with
        | some c => ["# ".data ++ c ++ "\n".data]
        | none => []
      acc ++ commentLines ++ ["[".data ++ sec.1.data ++ "]\n".data]
        ++ ini_section_lines sec.2 ++ ["\n".data])
    []

/-- The `User` dataclass of `ini_writer.py`. -/
structure PgUser where
  username : List Char
  password : List Char
deriving DecidableEq

/-- The `UserWithGrants` dataclass of `ini_writer.py`. -/
structure UserWithGrants extends PgUser where
  grants : List (List Char)
deriving DecidableEq

/-- The `AUTH_TYPES` literal type of `config.py`. -/
inductive AuthType
  | cert
  | md5
  | scram_sha_256
  | plain
  | trust
  | any
  | hba
  | pam
deriving DecidableEq

/-! ### MD5 (model of `hashlib.md5`)

`write_userlist_file` hashes `password + username` with MD5.  `hashlib` is
Python standard library, so the algorithm (RFC 1321) is embedded here
directly, over byte lists, with 32-bit words as `Nat` masked to 32 bits. -/

namespace MD5

/-- Per-step left-rotation amounts (RFC 1321). -/
def sTable : List Nat :=
  [7, 12, 17, 22, 7, 12, 17, 22, 7, 12, 17, 22, 7, 12, 17, 22,
   5, 9, 14, 20, 5, 9, 14, 20, 5, 9, 14, 20, 5, 9, 14, 20,
   4, 11, 16, 23, 4, 11, 16, 23, 4, 11, 16, 23, 4, 11, 16, 23,
   6, 10, 15, 21, 6, 10, 15, 21, 6, 10, 15, 21, 6, 10, 15, 21]

/-- Per-step additive constants `floor(2^32 * abs(sin(i+1)))` (RFC 1321). -/
def kTable : List Nat :=
  [0xd76aa478, 0xe8c7b756, 0x242070db, 0xc1bdceee,
   0xf57c0faf, 0x4787c62a, 0xa8304613, 0xfd469501,
   0x698098d8, 0x8b44f7af, 0xffff5bb1, 0x895cd7be,
   0x6b901122, 0xfd987193, 0xa679438e, 0x49b40821,
   0xf61e2562, 0xc040b340, 0x265e5a51, 0xe9b6c7aa,
   0xd62f105d, 0x02441453, 0xd8a1e681, 0xe7d3fbc8,
   0x21e1cde6, 0xc33707d6, 0xf4d50d87, 0x455a14ed,
   0xa9e3e905, 0xfcefa3f8, 0x676f02d9, 0x8d2a4c8a,
   0xfffa3942, 0x8771f681, 0x6d9d6122, 0xfde5380c,
   0xa4beea44, 0x4bdecfa9, 0xf6bb4b60, 0xbebfbc70,
   0x289b7ec6, 0xeaa127fa, 0xd4ef3085, 0x04881d05,
   0xd9d4d039, 0xe6db99e5, 0x1fa27cf8, 0xc4ac5665,
   0xf4292244, 0x432aff97, 0xab9423a7, 0xfc93a039,
   0x655b59c3, 0x8f0ccc92, 0xffeff47d, 0x85845dd1,
   0x6fa87e4f, 0xfe2ce6e0, 0xa3014314, 0x4e0811a1,
   0xf7537e82, 0xbd3af235, 0x2ad7d2bb, 0xeb86d391]

/-- 32-bit left rotation. -/
def rotl (x n : Nat) : Nat :=
  ((x <<< n) ||| (x >>> (32 - n))) &&& 0xFFFFFFFF

/-- One of the 64 MD5 steps, acting on the state `(a, b, c, d)` with the
16-word message schedule `m`. -/
def md5Step (m : Nat → Nat) (st : Nat × Nat × Nat × Nat) (i : Nat) :
    Nat × Nat × Nat × Nat :=
  let (a, b, c, d) := st
  let mask := 0xFFFFFFFF
  let fg : Nat × Nat :=
    if i < 16 then ((b &&& c) ||| ((b ^^^ mask) &&& d), i)
    else if i < 32 then ((d &&& b) ||| ((d ^^^ mask) &&& c), (5 * i + 1) % 16)
    else if i < 48 then (b ^^^ c ^^^ d, (3 * i + 5) % 16)
    else (c ^^^ (b ||| (d ^^^ mask)), (7 * i) % 16)
  let f := (fg.1 + a + kTable.getD i 0 + m fg.2) &&& mask
  (d, (b + rotl f (sTable.getD i 0)) &&& mask, b, c)

/-- Process one 64-byte chunk (little-endian 32-bit words). -/
def processChunk (h : Nat × Nat × Nat × Nat) (chunk : List Nat) :
    Nat × Nat × Nat × Nat :=
  let m : Nat → Nat := fun g =>
    chunk.getD (4 * g) 0 + 256 * chunk.getD (4 * g + 1) 0 +
      65536 * chunk.getD (4 * g + 2) 0 + 16777216 * chunk.getD (4 * g + 3) 0
  let r := (List.range 64).foldl (md5Step m) h
  ((h.1 + r.1) &&& 0xFFFFFFFF, (h.2.1 + r.2.1) &&& 0xFFFFFFFF,
   (h.2.2.1 + r.2.2.1) &&& 0xFFFFFFFF, (h.2.2.2 + r.2.2.2) &&& 0xFFFFFFFF)

/-- MD5 padding: a `0x80` byte, zeros to 56 mod 64, then the bit length as a
64-bit little-endian integer. -/
def pad (msg : List Nat) : List Nat :=
  let padLen := (120 - (msg.length + 1) % 64) % 64
  let bitLen := (msg.length * 8) % (2 ^ 64)
  msg ++ [0x80] ++ List.replicate padLen 0 ++
    (List.range 8).map (fun i => (bitLen >>> (8 * i)) &&& 0xFF)

/-- Split a byte list into 64-byte chunks. -/
def chunksOf64 (l : List Nat) : List (List Nat) :=
  if h : l = [] then [] else l.take 64 :: chunksOf64 (l.drop 64)
termination_by l.length
decreasing_by
  have : 0 < l.length := List.length_pos.mpr h
  simp only [List.length_drop]
  omega

/-- Little-endian byte serialization of a 32-bit word. -/
def le4 (x : Nat) : List Nat :=
  [x &&& 255, (x >>> 8) &&& 255, (x >>> 16) &&& 255, (x >>> 24) &&& 255]

/-- MD5 digest (16 bytes) of a byte list. -/
def md5Bytes (msg : List Nat) : List Nat :=
  let r := (chunksOf64 (pad msg)).foldl processChunk
    (0x67452301, 0xefcdab89, 0x98badcfe, 0x10325476)
  le4 r.1 ++ le4 r.2.1 ++ le4 r.2.2.1 ++ le4 r.2.2.2

/-- Lower-case hexadecimal digit. -/
def hexChar (n : Nat) : Char := "0123456789abcdef".data.getD n '0'

/-- Two-digit lower-case hexadecimal rendering of a byte. -/
def byteToHex (b : Nat) : List Char := [hexChar (b / 16), hexChar (b % 16)]

end MD5

/-- UTF-8 encoding of one character (model of Python `str.encode()`). -/
def utf8EncodeChar (c : Char) : List Nat :=
  let n := c.toNat
  if n < 0x80 then [n]
  else if n < 0x800 then
    [0xC0 ||| (n >>> 6), 0x80 ||| (n &&& 0x3F)]
  else if n < 0x10000 then
    [0xE0 ||| (n >>> 12), 0x80 ||| ((n >>> 6) &&& 0x3F), 0x80 ||| (n &&& 0x3F)]
  else
    [0xF0 ||| (n >>> 18), 0x80 ||| ((n >>> 12) &&& 0x3F),
     0x80 ||| ((n >>> 6) &&& 0x3F), 0x80 ||| (n &&& 0x3F)]

/-- Model of Python `s.encode()` (UTF-8 bytes of a string). -/
def pyEncode (s : List Char) : List Nat := s.flatMap utf8EncodeChar

/-- Model of `hashlib.md5(bytes).hexdigest()` on an encoded string. -/
def md5HexDigest (msg : List Nat) : List Char :=
  (MD5.md5Bytes msg).flatMap MD5.byteToHex

/-- The message of the `NotImplementedError` raised for SCRAM. -/
def scramError : List Char := "SCRAM-SHA-256 is not yet implemented".data

/-- One output line of `write_userlist_file`:
`f'"{user.username}" "{password}"\n'`. -/
def userlistLine (username password : List Char) : List Char :=
  dquote :: username ++ [dquote, ' ', dquote] ++ password ++ [dquote, '\n']

/-- Model of `write_userlist_file` (`ini_writer.py`): the list of lines
written, paired with the `NotImplementedError` message if one is raised.
The source raises inside the per-user loop before any write for that user,
so with a non-empty list and `scram-sha-256` the error fires on the first
user and nothing at all is written. -/
def write_userlist_file : List PgUser → AuthType → List (List Char) × Option (List Char)
  | [], _ => ([], none)
  | user :: rest, encrypt =>
    if encrypt = .md5 then
      let password := "md5".data ++ md5HexDigest (pyEncode (user.password ++ user.username))
      let r := write_userlist_file rest encrypt
      (userlistLine user.username password :: r.1, r.2)
    else if encrypt = .scram_sha_256 then ([], some scramError)
    else
      let r := write_userlist_file rest encrypt
      (userlistLine user.username user.password :: r.1, r.2)

/-- The header line of the HBA file. -/
def hbaHeader : List Char := "# TYPE\tDATABASE\tUSER\tADDRESS\tMETHOD\n".data

/-- Local-socket allow line: `f"local\t{pool}\t{user.username}\t\tmd5\n"`. -/
def hba_allow_local (username pool : List Char) : List Char :=
  "local\t".data ++ pool ++ "\t".data ++ username ++ "\t\tmd5\n".data

/-- IPv4-any host allow line:
`f"host\t{pool}\t{user.username}\t0.0.0.0/0\tmd5\n"`. -/
def hba_allow_host4 (username pool : List Char) : List Char :=
  "host\t".data ++ pool ++ "\t".data ++ username ++ "\t0.0.0.0/0\tmd5\n".data

/-- IPv6-any host allow line: `f"host\t{pool}\t{user.username}\t::0/0\tmd5\n"`. -/
def hba_allow_host6 (username pool : List Char) : List Char :=
  "host\t".data ++ pool ++ "\t".data ++ username ++ "\t::0/0\tmd5\n".data

/-- IPv4 deny line: `f"host\tall\t{user.username}\t!0.0.0.0/0\t!md5\n"`. -/
def hba_deny4 (username : List Char) : List Char :=
  "host\tall\t".data ++ username ++ "\t!0.0.0.0/0\t!md5\n".data

/-- IPv6 deny line: `f"host\tall\t{user.username}\t!::0/0\t!md5\n"`. -/
def hba_deny6 (username : List Char) : List Char :=
  "host\tall\t".data ++ username ++ "\t!::0/0\t!md5\n".data

/-- Model of `write_hba_file` (`ini_writer.py`): the header line followed by
the writes of the nested `for user / for pool` loops, in order.  Note that
the two deny lines are written inside the per-pool loop. -/
def write_hba_file (users : List UserWithGrants) : List (List Char) :=
  users.foldl
    (fun acc user =>
      user.grants.foldl
        (fun acc2 pool =>
          acc2 ++ [hba_allow_local user.username pool,
                   hba_allow_host4 user.username pool,
                   hba_allow_host6 user.username pool,
                   hba_deny4 user.username,
                   hba_deny6 user.username])
        acc)
    [hbaHeader]

/-! ### Lemmas about the decimal rendering -/

theorem natToCharsAux_irrel :
    ∀ f₁ f₂ n, n < f₁ → n < f₂ → natToCharsAux f₁ n = natToCharsAux f₂ n := by
  intro f₁
  induction f₁ with
  | zero => intro f₂ n h; omega
  | succ g ih =>
    intro f₂ n h1 h2
    match f₂, h2 with
    | g₂ + 1, _ =>
      simp only [natToCharsAux]
      by_cases h10 : n < 10
      · simp [h10]
      · have hlt : n / 10 < n := Nat.div_lt_self (by omega) (by omega)
        simp only [h10, if_false]
        rw [ih g₂ (n / 10) (by omega) (by omega)]

/-- Unfolding equation for `natToChars` that recurses on `n / 10`. -/
theorem natToChars_eq (n : Nat) :
    natToChars n =
      if n < 10 then [digitChar n]
      else natToChars (n / 10) ++ [digitChar (n % 10)] := by
  by_cases h10 : n < 10
  · unfold natToChars natToCharsAux
    simp [h10]
  · have hlt : n / 10 < n := Nat.div_lt_self (by omega) (by omega)
    have h1 : natToChars n = natToCharsAux n (n / 10) ++ [digitChar (n % 10)] := by
      unfold natToChars
      simp only [natToCharsAux]
      simp [h10]
    rw [h1, natToCharsAux_irrel n (n / 10 + 1) (n / 10) (by omega) (by omega)]
    simp [h10, natToChars]

theorem digitChar_toNat {d : Nat} (h : d < 10) : (digitChar d).toNat = 48 + d := by
  interval_cases d <;> decide

theorem digitChar_isDigit {d : Nat} (h : d < 10) : (digitChar d).isDigit = true := by
  interval_cases d <;> decide

theorem natToChars_ne_nil (n : Nat) : natToChars n ≠ [] := by
  rw [natToChars_eq]
  by_cases h10 : n < 10 <;> simp [h10]

theorem natToChars_all_digits (n : Nat) : ∀ c ∈ natToChars n, c.isDigit = true := by
  induction n using Nat.strong_induction_on with
  | _ n ih =>
    rw [natToChars_eq]
    by_cases h10 : n < 10
    · simp only [h10, if_true]
      intro c hc
      simp only [List.mem_singleton] at hc
      subst hc
      exact digitChar_isDigit h10
    · have hlt : n / 10 < n := Nat.div_lt_self (by omega) (by omega)
      simp only [h10, if_false]
      intro c hc
      rcases List.mem_append.mp hc with h | h
      · exact ih (n / 10) hlt c h
      · simp only [List.mem_singleton] at h
        subst h
        exact digitChar_isDigit (Nat.mod_lt _ (by omega))

theorem foldl_digits_natToChars (n : Nat) :
    ∀ a, (natToChars n).foldl (fun a c => a * 10 + (c.toNat - 48)) a =
      a * 10 ^ (natToChars n).length + n := by
  induction n using Nat.strong_induction_on with
  | _ n ih =>
    intro a
    rw [natToChars_eq]
    by_cases h10 : n < 10
    · simp [h10, List.foldl, digitChar_toNat h10]
    · have hlt : n / 10 < n := Nat.div_lt_self (by omega) (by omega)
      simp only [h10, if_false, List.foldl_append, List.foldl_cons, List.foldl_nil,
        List.length_append, List.length_singleton]
      rw [ih (n / 10) hlt a]
      rw [digitChar_toNat (Nat.mod_lt _ (by omega))]
      have h48 : 48 + n % 10 - 48 = n % 10 := by omega
      rw [h48, pow_succ]
      have hnm : n / 10 * 10 + n % 10 = n := by omega
      calc (a * 10 ^ (natToChars (n / 10)).length + n / 10) * 10 + n % 10
          = a * (10 ^ (natToChars (n / 10)).length * 10) + (n / 10 * 10 + n % 10) := by ring
        _ = a * (10 ^ (natToChars (n / 10)).length * 10) + n := by rw [hnm]

theorem digitsVal_natToChars (n : Nat) : digitsVal (natToChars n) = n := by
  unfold digitsVal
  rw [foldl_digits_natToChars n 0]
  simp

theorem pyParseNat_natToChars (n : Nat) : pyParseNat (natToChars n) = some n := by
  unfold pyParseNat
  rw [if_pos, digitsVal_natToChars]
  refine ⟨natToChars_ne_nil n, ?_⟩
  rw [List.all_eq_true]
  exact natToChars_all_digits n

theorem pyParseInt_natToChars (n : Nat) : pyParseInt (natToChars n) = some (n : Int) := by
  have hne := natToChars_ne_nil n
  have hdig := natToChars_all_digits n
  rcases hcs : natToChars n with _ | ⟨c, rest⟩
  · exact absurd hcs hne
  · have hc : c.isDigit = true := by
      apply hdig
      rw [hcs]
      exact List.mem_cons_self _ _
    have hc1 : ¬ c = '-' := by rintro rfl; exact absurd hc (by decide)
    have hc2 : ¬ c = '+' := by rintro rfl; exact absurd hc (by decide)
    have h := pyParseNat_natToChars n
    rw [hcs] at h
    simp [pyParseInt, hc1, hc2, h]


/-! ### Arithmetic bridging lemmas -/

theorem fdiv_eq_floor_div (a : Int) (d : Nat) (hd : 0 < d) :
    a.fdiv (d : Int) = ⌊(a : ℚ) / (d : ℚ)⌋ := by
  rw [Int.fdiv_eq_ediv _ (by positivity), Rat.floor_intCast_div_natCast]

theorem ceilHalf_eq_ceil (c : Int) : ceilHalf c = ⌈(c : ℚ) / 2⌉ := by
  have h1 : ⌈(c : ℚ) / 2⌉ = -⌊(((-c : Int) : ℚ)) / ((2 : ℕ) : ℚ)⌋ := by
    rw [← Int.ceil_neg]
    congr 1
    push_cast
    ring
  rw [h1, Rat.floor_intCast_div_natCast]
  unfold ceilHalf
  rw [Int.fdiv_eq_ediv _ (by norm_num)]
  omega

theorem max_trunc_eq_max_floor (q : ℚ) : max 64 (pyTrunc q) = max 64 ⌊q⌋ := by
  unfold pyTrunc
  rcases le_or_lt 0 q.num with hq | hq
  · rw [Int.tdiv_eq_ediv hq (by positivity), ← Rat.floor_def]
  · have hden : (0 : Int) < (q.den : Int) := by exact_mod_cast q.pos
    have h1 : q.num.tdiv (q.den : Int) ≤ 0 := by
      have h2 : q.num.tdiv (q.den : Int) = -((-q.num).tdiv (q.den : Int)) := by
        rw [Int.neg_tdiv, neg_neg]
      rw [h2, Int.tdiv_eq_ediv (by omega) (by omega)]
      have := Int.ediv_nonneg (a := -q.num) (b := (q.den : Int)) (by omega) (by omega)
      omega
    have h3 : ⌊q⌋ ≤ 0 := by
      apply Int.floor_nonpos
      have : ¬ (0 : ℚ) ≤ q := by
        rw [← Rat.num_nonneg]
        omega
      linarith [lt_of_not_le this]
    rw [max_eq_left (by omega), max_eq_left (by omega)]

/-! ### Claim theorems for `logic.py` -/

/-- C6 (amended): `get_max_connections` returns `connection_num` whenever it
is present and nonzero, for every workload; when it is absent — or present
with the Python-falsy value `0` — it returns the fixed workload table value
web=200, oltp=300, dw=40, desktop=20, mixed=100. -/
theorem claim6_max_connections (cfg : Configuration) :
    (∀ n, cfg.connection_num = some n → n ≠ 0 → get_max_connections cfg = n)
    ∧ ((cfg.connection_num = none ∨ cfg.connection_num = some 0) →
        get_max_connections cfg =
          match cfg.db_type with
          | .web => 200
          | .oltp => 300
          | .dw => 40
          | .desktop => 20
          | .mixed => 100) := by
  constructor
  · intro n hn hnz
    simp [get_max_connections, hn, hnz]
  · rintro (h | h) <;> simp [get_max_connections, h]

/-- Witness for C6: the override `connection_num = 45` wins (here with the
oltp workload whose table value would be 300). -/
theorem claim6_max_connections_witness :
    get_max_connections ⟨12, .linux, .oltp, none, .gb, none, some 45, .ssd⟩ = 45 :=
  (claim6_max_connections _).1 45 rfl (by decide)

/-- Counterexample for C6 as stated: with `connection_num` present but equal
to `0`, `get_max_connections` does not return `connection_num` (Python
truthiness treats `0` like `None`), so for the oltp workload it returns the
table value 300 instead of 0. -/
theorem claim6_counterexample :
    (⟨12, .linux, .oltp, none, .gb, none, some 0, .ssd⟩ :
        Configuration).connection_num = some 0
    ∧ get_max_connections ⟨12, .linux, .oltp, none, .gb, none, some 0, .ssd⟩ = 300
    ∧ (300 : Int) ≠ 0 := by
  refine ⟨rfl, ?_, by decide⟩
  simp [get_max_connections]

/-- C5: when `shared_buffers` is computable, `get_wal_buffers` takes the
floor of 3% of `shared_buffers` (in kB), caps it at 16384 kB, snaps values
strictly between 14336 kB and 16384 kB up to 16384, and raises values below
32 kB to 32; it is absent exactly when `shared_buffers` is absent. -/
theorem claim5_wal_buffers (cfg : Configuration) :
    (get_wal_buffers cfg = none ↔ get_shared_buffers cfg = none)
    ∧ (∀ sb, get_shared_buffers cfg = some sb →
        get_wal_buffers cfg = some (
          let v1 := ⌊(3 * (sb : ℚ)) / 100⌋
          let v2 := if 16384 < v1 then 16384 else v1
          let v3 := if 14336 < v2 ∧ v2 < 16384 then 16384 else v2
          if v3 < 32 then 32 else v3)) := by
  constructor
  · unfold get_wal_buffers
    cases get_shared_buffers cfg <;> simp
  · intro sb hsb
    unfold get_wal_buffers
    rw [hsb]
    simp only [Option.map_some']
    have hfdiv : (3 * sb).fdiv 100 = ⌊(3 * (sb : ℚ)) / 100⌋ := by
      have h1 : (3 * sb).fdiv ((100 : ℕ) : Int) = ⌊((3 * sb : Int) : ℚ) / ((100 : ℕ) : ℚ)⌋ :=
        fdiv_eq_floor_div (3 * sb) 100 (by norm_num)
      have h2 : ((3 * sb : Int) : ℚ) = 3 * (sb : ℚ) := by push_cast; ring
      have h3 : (((100 : ℕ)) : ℚ) = (100 : ℚ) := by norm_num
      rw [h2, h3] at h1
      exact_mod_cast h1
    rw [hfdiv]

/-- Witness for C5: 4 GB total memory on a web workload gives
`shared_buffers = 1048576` kB; 3% of that is 31457 kB which exceeds the cap,
so `wal_buffers` is 16384 kB. -/
theorem claim5_wal_buffers_witness :
    get_shared_buffers ⟨12, .linux, .web, some 4, .gb, none, none, .ssd⟩ = some 1048576
    ∧ get_wal_buffers ⟨12, .linux, .web, some 4, .gb, none, none, .ssd⟩ = some 16384 := by
  refine ⟨by decide, ?_⟩
  have h := (claim5_wal_buffers ⟨12, .linux, .web, some 4, .gb, none, none, .ssd⟩).2
    1048576 (by decide)
  rw [h]
  norm_num

/-- C7: `format_kb_value 0 = "0kB"`; for nonzero `v` the GB unit is used
when `v` is divisible by 1048576, else the MB unit when divisible by 1024,
else raw kB; and the concrete examples `1048576 → "1GB"`, `1024 → "1MB"`,
`512 → "512kB"`, `1000 → "1000kB"` hold. -/
theorem claim7_format_kb_value (v : Int) :
    format_kb_value 0 = "0kB".data
    ∧ (v ≠ 0 → (1048576 : Int) ∣ v →
        format_kb_value v = intToChars (v / 1048576) ++ "GB".data)
    ∧ (v ≠ 0 → ¬ (1048576 : Int) ∣ v → (1024 : Int) ∣ v →
        format_kb_value v = intToChars (v / 1024) ++ "MB".data)
    ∧ (v ≠ 0 → ¬ (1048576 : Int) ∣ v → ¬ (1024 : Int) ∣ v →
        format_kb_value v = intToChars v ++ "kB".data)
    ∧ format_kb_value 1048576 = "1GB".data
    ∧ format_kb_value 1024 = "1MB".data
    ∧ format_kb_value 512 = "512kB".data
    ∧ format_kb_value 1000 = "1000kB".data := by
  have hmodG : v.fmod 1048576 = 0 ↔ (1048576 : Int) ∣ v := by
    rw [Int.fmod_eq_emod _ (by norm_num)]
    exact ⟨Int.dvd_of_emod_eq_zero, Int.emod_eq_zero_of_dvd⟩
  have hmodM : v.fmod 1024 = 0 ↔ (1024 : Int) ∣ v := by
    rw [Int.fmod_eq_emod _ (by norm_num)]
    exact ⟨Int.dvd_of_emod_eq_zero, Int.emod_eq_zero_of_dvd⟩
  refine ⟨by decide, ?_, ?_, ?_, by decide, by decide, by decide, by decide⟩
  · intro hv hdvd
    rw [format_kb_value, if_neg hv, if_pos (hmodG.mpr hdvd),
      Int.fdiv_eq_ediv _ (by norm_num)]
  · intro hv hndvd hdvd
    rw [format_kb_value, if_neg hv, if_neg (fun h => hndvd (hmodG.mp h)),
      if_pos (hmodM.mpr hdvd), Int.fdiv_eq_ediv _ (by norm_num)]
  · intro hv hndvdG hndvdM
    rw [format_kb_value, if_neg hv, if_neg (fun h => hndvdG (hmodG.mp h)),
      if_neg (fun h => hndvdM (hmodM.mp h))]

/-- Witness for C7: instantiation at `v = 3145728 = 3 * 1048576`, which takes
the GB branch. -/
theorem claim7_format_kb_value_witness :
    (3145728 : Int) ≠ 0 ∧ (1048576 : Int) ∣ 3145728
    ∧ format_kb_value 3145728 = intToChars ((3145728 : Int) / 1048576) ++ "GB".data :=
  ⟨by decide, ⟨3, by decide⟩,
    (claim7_format_kb_value 3145728).2.1 (by decide) ⟨3, by decide⟩⟩

/-- C1: `get_parallel_settings` is empty when `cpu_num` is absent or below 4,
for every workload and version; otherwise it contains
`max_worker_processes = cpu_num`, `max_parallel_workers_per_gather` equal to
`⌈cpu_num / 2⌉` capped at 4 except for the dw workload,
`max_parallel_workers = cpu_num` exactly when `db_version ≥ 10`, and
`max_parallel_maintenance_workers = min ⌈cpu_num / 2⌉ 4` exactly when
`db_version ≥ 11`; and for `cpu_num = 31, db_version = 12, workload = dw` the
gather setting is 16 and the maintenance setting is 4. -/
theorem claim1_parallel_settings (cfg : Configuration) :
    ((cfg.cpu_num = none ∨ (∃ c, cfg.cpu_num = some c ∧ c < 4)) →
      get_parallel_settings cfg = [])
    ∧ (∀ c, cfg.cpu_num = some c → 4 ≤ c →
        ((get_parallel_settings cfg).lookup "max_worker_processes" = some c
        ∧ (get_parallel_settings cfg).lookup "max_parallel_workers_per_gather" =
            some (if cfg.db_type = .dw then ⌈(c : ℚ) / 2⌉ else min ⌈(c : ℚ) / 2⌉ 4)
        ∧ (get_parallel_settings cfg).lookup "max_parallel_workers" =
            (if 10 ≤ cfg.db_version then some c else none)
        ∧ (get_parallel_settings cfg).lookup "max_parallel_maintenance_workers" =
            (if 11 ≤ cfg.db_version then some (min ⌈(c : ℚ) / 2⌉ 4) else none)))
    ∧ ((get_parallel_settings
          ⟨12, .linux, .dw, none, .gb, some 31, none, .ssd⟩).lookup
            "max_parallel_workers_per_gather" = some 16
        ∧ (get_parallel_settings
            ⟨12, .linux, .dw, none, .gb, some 31, none, .ssd⟩).lookup
              "max_parallel_maintenance_workers" = some 4) := by
  refine ⟨?_, ?_, by decide, by decide⟩
  · rintro (h | ⟨c, hc, hlt⟩)
    · simp [get_parallel_settings, h]
    · simp [get_parallel_settings, hc, show c = 0 ∨ c < 4 from Or.inr hlt]
  · intro c hc h4
    have hcond : ¬ (c = 0 ∨ c < 4) := by omega
    rw [show (if cfg.db_type = .dw then ⌈(c : ℚ) / 2⌉ else min ⌈(c : ℚ) / 2⌉ 4) =
        (if cfg.db_type ≠ .dw ∧ ceilHalf c > 4 then 4 else ceilHalf c) from ?_,
      show (if 11 ≤ cfg.db_version then some (min ⌈(c : ℚ) / 2⌉ 4) else none) =
        (if 11 ≤ cfg.db_version then
          some (if ceilHalf c > 4 then 4 else ceilHalf c) else none) from ?_]
    · simp only [get_parallel_settings, hc]
      rw [if_neg hcond]
      by_cases h10 : (10 : ℚ) ≤ cfg.db_version
        <;> by_cases h11 : (11 : ℚ) ≤ cfg.db_version
        <;> simp [h10, h11, List.lookup]
    · rw [← ceilHalf_eq_ceil]
      by_cases h11 : (11 : ℚ) ≤ cfg.db_version <;> simp [h11]
      omega
    · rw [← ceilHalf_eq_ceil]
      by_cases hdw : cfg.db_type = .dw <;> simp [hdw]
      omega

/-- Witness for C1: for a web workload with 2 CPUs the settings are empty,
and for 12 CPUs at version 13 the worker-process count is 12. -/
theorem claim1_parallel_settings_witness :
    get_parallel_settings ⟨13, .linux, .web, none, .gb, some 2, none, .ssd⟩ = []
    ∧ (get_parallel_settings
        ⟨13, .linux, .web, none, .gb, some 12, none, .ssd⟩).lookup
          "max_worker_processes" = some 12 :=
  ⟨(claim1_parallel_settings _).1 (Or.inr ⟨2, rfl, by decide⟩),
    ((claim1_parallel_settings _).2.1 12 rfl (by decide)).1⟩

/-- The sequential scan with `break` in `get_work_mem` agrees with a
first-match lookup of `max_parallel_workers_per_gather`, on every list. -/
theorem parallel_workers_from_eq (l : List (String × Int)) :
    parallel_workers_from l =
      (match l.lookup "max_parallel_workers_per_gather" with
       | some v => if 0 < v then v else 1
       | none => 1) := by
  induction l with
  | nil => rfl
  | cons kv rest ih =>
    obtain ⟨k, v⟩ := kv
    by_cases hk : k = "max_parallel_workers_per_gather"
    · subst hk
      simp [parallel_workers_from, List.lookup]
    · have hk2 : ("max_parallel_workers_per_gather" == k) = false := by
        simp [hk]
        exact fun h => hk h.symm
      simp [parallel_workers_from, List.lookup, hk, hk2, ih]

/-- C2: `get_work_mem` is absent exactly when total memory is absent;
otherwise it is `max 64 ⌊scale * ((memory_kb - shared_buffers) /
(max_connections * 3) / parallel_workers)⌋` where `parallel_workers` is the
computed `max_parallel_workers_per_gather` when present and positive (else
1), and `scale` is 1 for web/oltp, ½ for dw/mixed and ⅙ for desktop. -/
theorem claim2_work_mem (cfg : Configuration) :
    (get_work_mem cfg = none ↔ cfg.total_memory = none)
    ∧ (∀ memory_kb shared_buffers,
        get_total_memory_in_kb cfg = some memory_kb →
        get_shared_buffers cfg = some shared_buffers →
        get_work_mem cfg = some (max 64
          ⌊(match cfg.db_type with
             | .web => (1 : ℚ)
             | .oltp => 1
             | .dw => 1 / 2
             | .desktop => 1 / 6
             | .mixed => 1 / 2) *
            (((memory_kb : ℚ) - (shared_buffers : ℚ)) /
              ((get_max_connections cfg : ℚ) * 3) /
              (match (get_parallel_settings cfg).lookup
                  "max_parallel_workers_per_gather" with
               | some v => if 0 < v then (v : ℚ) else 1
               | none => 1))⌋)) := by
  constructor
  · cases htm : cfg.total_memory with
    | none =>
      simp [get_work_mem, get_total_memory_in_kb, get_total_memory_in_bytes,
        get_shared_buffers, htm]
    | some m =>
      simp [get_work_mem, get_total_memory_in_kb, get_total_memory_in_bytes,
        get_shared_buffers, htm]
  · intro memory_kb shared_buffers h1 h2
    simp only [get_work_mem, h1, h2]
    congr 1
    have hpw : ((parallel_workers_from (get_parallel_settings cfg) : Int) : ℚ) =
        (match (get_parallel_settings cfg).lookup
            "max_parallel_workers_per_gather" with
         | some v => if 0 < v then (v : ℚ) else 1
         | none => 1) := by
      rw [parallel_workers_from_eq]
      cases (get_parallel_settings cfg).lookup "max_parallel_workers_per_gather" with
      | none => norm_num
      | some v =>
        by_cases hv : 0 < v <;> simp [hv]
    have hscale : ∀ x : ℚ, work_mem_scale cfg.db_type x =
        (match cfg.db_type with
         | .web => (1 : ℚ)
         | .oltp => 1
         | .dw => 1 / 2
         | .desktop => 1 / 6
         | .mixed => 1 / 2) * x := by
      intro x
      cases cfg.db_type <;> simp [work_mem_scale] <;> ring
    rw [← hpw, hscale, max_trunc_eq_max_floor]

/-- Witness for C2: 8 GB, web workload, 12 CPUs, default connections (200):
`memory_kb = 8388608`, `shared_buffers = 2097152`, gather workers 4, so
`work_mem = ⌊6291456 / 600 / 4⌋ = 2621` kB. -/
theorem claim2_work_mem_witness :
    get_total_memory_in_kb
        ⟨13, .linux, .web, some 8, .gb, some 12, none, .ssd⟩ = some 8388608
    ∧ get_work_mem ⟨13, .linux, .web, some 8, .gb, some 12, none, .ssd⟩ =
        some 2621 := by
  refine ⟨by decide, ?_⟩
  have h := (claim2_work_mem ⟨13, .linux, .web, some 8, .gb, some 12, none, .ssd⟩).2
    8388608 2097152 (by decide) (by decide)
  rw [h]
  have hs : ("max_parallel_workers_per_gather" == "max_worker_processes") = false := by
    decide
  have hf : Int.fdiv 13 2 = 6 := by decide
  norm_num [get_max_connections, get_parallel_settings, ceilHalf, List.lookup, hs, hf,
    show ¬ (DbType.web = DbType.dw) from by decide]

/-! ### Claim theorems for the formatter, merge and pool-config writers -/

/-- C4: in the merged configuration `{**new_config, **existing_config}` that
`build_config` formats and writes, a key present in the existing on-disk
configuration always takes the formatted existing value — independently of
what was freshly computed — and freshly computed values survive only for
keys absent from the existing configuration. -/
theorem claim4_merge_precedence (newC existC : PgDict) (k : String) :
    (∀ v, existC k = some v →
        format_postgres_values (pyDictMerge newC existC) k = formatForKey k v)
    ∧ (existC k = none →
        format_postgres_values (pyDictMerge newC existC) k =
          format_postgres_values newC k) := by
  constructor
  · intro v hv
    simp [format_postgres_values, pyDictMerge, hv]
  · intro hv
    simp [format_postgres_values, pyDictMerge, hv]

/-- Witness for C4: with `max_connections` present in both the freshly
computed and the existing configuration, the formatted output keeps the
existing value 7, not the computed 200; the computed-only key `work_mem`
falls through to the computed side. -/
theorem claim4_merge_precedence_witness :
    format_postgres_values
        (pyDictMerge
          (fun k => if k = "max_connections" then some (.vint 200)
            else if k = "work_mem" then some (.vint 2048) else none)
          (fun k => if k = "max_connections" then some (.vint 7) else none))
        "max_connections" = formatForKey "max_connections" (.vint 7)
    ∧ format_postgres_values
        (pyDictMerge
          (fun k => if k = "max_connections" then some (.vint 200)
            else if k = "work_mem" then some (.vint 2048) else none)
          (fun k => if k = "max_connections" then some (.vint 7) else none))
        "work_mem" =
        format_postgres_values
          (fun k => if k = "max_connections" then some (.vint 200)
            else if k = "work_mem" then some (.vint 2048) else none) "work_mem" :=
  ⟨(claim4_merge_precedence _ _ _).1 (.vint 7) (by decide),
    (claim4_merge_precedence _ _ _).2 (by decide)⟩

/-- Appending via a left fold is concatenation with a `flatMap`: shape of the
nested write loops of `write_hba_file`. -/
theorem foldl_append_flatMap {α β : Type} (g : α → List β) (l : List α) :
    ∀ acc : List β, l.foldl (fun a x => a ++ g x) acc = acc ++ l.flatMap g := by
  induction l with
  | nil => intro acc; simp
  | cons x rest ih =>
    intro acc
    simp only [List.foldl_cons, List.flatMap_cons, ih, List.append_assoc]

/-- C3 (amended): `write_hba_file` emits the header and then, for every user
and every granted pool in order, a block of exactly five lines: one
local-socket allow line, two host allow lines (IPv4-any and IPv6-any) — all
using the hard-coded `md5` method — followed by the two deny lines for that
user.  The three allow lines precede the two deny lines within each
(user, pool) block; the deny lines are emitted per pool, inside the loop, so
for a user with several grants the deny lines of an earlier pool precede the
allow lines of later pools. -/
theorem claim3_hba_structure (users : List UserWithGrants) :
    write_hba_file users = hbaHeader ::
      users.flatMap (fun user => user.grants.flatMap (fun pool =>
        [hba_allow_local user.username pool,
         hba_allow_host4 user.username pool,
         hba_allow_host6 user.username pool,
         hba_deny4 user.username,
         hba_deny6 user.username])) := by
  unfold write_hba_file
  have hinner : ∀ (user : UserWithGrants) (acc : List (List Char)),
      user.grants.foldl
        (fun acc2 pool =>
          acc2 ++ [hba_allow_local user.username pool,
                   hba_allow_host4 user.username pool,
                   hba_allow_host6 user.username pool,
                   hba_deny4 user.username,
                   hba_deny6 user.username])
        acc =
      acc ++ user.grants.flatMap (fun pool =>
        [hba_allow_local user.username pool,
         hba_allow_host4 user.username pool,
         hba_allow_host6 user.username pool,
         hba_deny4 user.username,
         hba_deny6 user.username]) := by
    intro user acc
    exact foldl_append_flatMap _ _ acc
  calc users.foldl
        (fun acc user =>
          user.grants.foldl
            (fun acc2 pool =>
              acc2 ++ [hba_allow_local user.username pool,
                       hba_allow_host4 user.username pool,
                       hba_allow_host6 user.username pool,
                       hba_deny4 user.username,
                       hba_deny6 user.username])
            acc)
        [hbaHeader]
      = users.foldl
          (fun acc user =>
            acc ++ user.grants.flatMap (fun pool =>
              [hba_allow_local user.username pool,
               hba_allow_host4 user.username pool,
               hba_allow_host6 user.username pool,
               hba_deny4 user.username,
               hba_deny6 user.username]))
          [hbaHeader] := by
        congr 1
        funext acc user
        exact hinner user acc
    _ = [hbaHeader] ++ users.flatMap (fun user =>
          user.grants.flatMap (fun pool =>
            [hba_allow_local user.username pool,
             hba_allow_host4 user.username pool,
             hba_allow_host6 user.username pool,
             hba_deny4 user.username,
             hba_deny6 user.username])) := foldl_append_flatMap _ _ _
    _ = hbaHeader :: users.flatMap (fun user =>
          user.grants.flatMap (fun pool =>
            [hba_allow_local user.username pool,
             hba_allow_host4 user.username pool,
             hba_allow_host6 user.username pool,
             hba_deny4 user.username,
             hba_deny6 user.username])) := by simp

/-- Counterexample for C3 as stated: for the single user `alice` with grants
`["dba", "dbb"]`, it is not the case that every allow line of `alice`
precedes every deny line of `alice` — the local allow line for the second
pool (index 6) comes after the deny lines written for the first pool
(index 4). -/
theorem claim3_counterexample :
    ¬ (∀ i j : Nat,
        i < (write_hba_file [⟨⟨"alice".data, "pw".data⟩, ["dba".data, "dbb".data]⟩]).length →
        j < (write_hba_file [⟨⟨"alice".data, "pw".data⟩, ["dba".data, "dbb".data]⟩]).length →
        (∃ p ∈ (["dba".data, "dbb".data] : List (List Char)),
          (write_hba_file [⟨⟨"alice".data, "pw".data⟩,
              ["dba".data, "dbb".data]⟩]).getD i [] = hba_allow_local "alice".data p
          ∨ (write_hba_file [⟨⟨"alice".data, "pw".data⟩,
              ["dba".data, "dbb".data]⟩]).getD i [] = hba_allow_host4 "alice".data p
          ∨ (write_hba_file [⟨⟨"alice".data, "pw".data⟩,
              ["dba".data, "dbb".data]⟩]).getD i [] = hba_allow_host6 "alice".data p) →
        ((write_hba_file [⟨⟨"alice".data, "pw".data⟩,
            ["dba".data, "dbb".data]⟩]).getD j [] = hba_deny4 "alice".data
          ∨ (write_hba_file [⟨⟨"alice".data, "pw".data⟩,
              ["dba".data, "dbb".data]⟩]).getD j [] = hba_deny6 "alice".data) →
        i < j) := by
  intro h
  have h6 := h 6 4 (by decide) (by decide)
    ⟨"dbb".data, by decide, Or.inl (by decide)⟩ (Or.inl (by decide))
  omega

/-- C9: `write_userlist_file` writes one `"username" "secret"` line per user;
with md5 auth the secret is `md5` followed by the hex MD5 digest of
`password + username`; with plain auth the secret is the password verbatim;
and with scram-sha-256 auth any non-empty user list makes the operation fail
with the explicit not-implemented error before a single user line is
written. -/
theorem claim9_userlist (users : List PgUser) :
    (write_userlist_file users .md5 =
      (users.map (fun u => userlistLine u.username
        ("md5".data ++ md5HexDigest (pyEncode (u.password ++ u.username)))), none))
    ∧ (write_userlist_file users .plain =
        (users.map (fun u => userlistLine u.username u.password), none))
    ∧ (users ≠ [] → write_userlist_file users .scram_sha_256 = ([], some scramError)) := by
  refine ⟨?_, ?_, ?_⟩
  · induction users with
    | nil => rfl
    | cons u rest ih => simp [write_userlist_file, ih]
  · induction users with
    | nil => rfl
    | cons u rest ih =>
      simp only [write_userlist_file]
      rw [if_neg (by decide), if_neg (by decide)]
      simp [ih]
  · intro hne
    cases users with
    | nil => exact absurd rfl hne
    | cons u rest =>
      simp only [write_userlist_file]
      rw [if_neg (by decide)]
      simp

/-- Witness for C9: a single user with scram-sha-256 auth yields the
not-implemented error and no written lines. -/
theorem claim9_userlist_witness :
    write_userlist_file [⟨"user1".data, "pass1".data⟩] .scram_sha_256 =
      ([], some scramError) :=
  (claim9_userlist [⟨"user1".data, "pass1".data⟩]).2.2 (by decide)

/-- The skip-empty write loop of `write_ini_file` is a filter followed by a
map, for every item list. -/
theorem ini_section_lines_eq_filter (items : List (String × IniValue)) :
    ini_section_lines items =
      (items.filter (fun kv => format_ini_value kv.2 != [])).map
        (fun kv => kv.1.data ++ " = ".data ++ format_ini_value kv.2 ++ "\n".data) := by
  have h : ∀ (its : List (String × IniValue)) (acc : List (List Char)),
      its.foldl
        (fun acc kv =>
          if format_ini_value kv.2 ≠ [] then
            acc ++ [kv.1.data ++ " = ".data ++ format_ini_value kv.2 ++ "\n".data]
          else acc)
        acc =
      acc ++ (its.filter (fun kv => format_ini_value kv.2 != [])).map
        (fun kv => kv.1.data ++ " = ".data ++ format_ini_value kv.2 ++ "\n".data) := by
    intro its
    induction its with
    | nil => intro acc; simp
    | cons kv rest ih =>
      intro acc
      rw [List.foldl_cons, List.filter_cons]
      by_cases hkv : format_ini_value kv.2 = []
      · rw [if_neg (fun hne => hne hkv)]
        have hb : (format_ini_value kv.2 != []) = false := by simp [hkv]
        rw [hb]
        simpa using ih acc
      · rw [if_pos hkv]
        have hb : (format_ini_value kv.2 != []) = true := by simp [hkv]
        rw [hb]
        simp only [if_true]
        rw [ih (acc ++ [kv.1.data ++ " = ".data ++ format_ini_value kv.2 ++ "\n".data])]
        simp
  have h0 := h items []
  simp only [List.nil_append] at h0
  exact h0

/-- C10 (amended): in `write_ini_file` a key is omitted exactly when its
formatted value is the empty string.  A `None` value, the empty list, and a
singleton list whose element formats to empty are therefore dropped, while a
list of two or more elements is never dropped (the `", "` separators make the
joined value non-empty even when every element formats to empty); an
empty-string value is emitted as a quoted empty string, and booleans (1/0)
and integers (including 0) are never dropped. -/
theorem claim10_ini_value_skipping :
    (∀ items : List (String × IniValue),
      ini_section_lines items =
        (items.filter (fun kv => format_ini_value kv.2 != [])).map
          (fun kv => kv.1.data ++ " = ".data ++ format_ini_value kv.2 ++ "\n".data))
    ∧ (∀ config : List (String × List (String × IniValue)),
        write_ini_file config (fun _ => none) =
          config.flatMap (fun sec =>
            ("[".data ++ sec.1.data ++ "]\n".data) ::
              ini_section_lines sec.2 ++ ["\n".data]))
    ∧ format_ini_value .inone = []
    ∧ format_ini_value (.ilist []) = []
    ∧ (∀ x, format_ini_value (.ilist [x]) = format_ini_value x)
    ∧ (∀ x y zs, format_ini_value (.ilist (x :: y :: zs)) ≠ [])
    ∧ (∀ s, format_ini_value (.istr s) ≠ [])
    ∧ format_ini_value (.istr []) = [dquote, dquote]
    ∧ (∀ b, format_ini_value (.ibool b) ≠ [])
    ∧ (∀ n, format_ini_value (.iint n) ≠ [])
    ∧ format_ini_value (.iint 0) = "0".data := by
  refine ⟨ini_section_lines_eq_filter, ?_, rfl, rfl, fun x => rfl, ?_, ?_, by decide,
    ?_, ?_, by decide⟩
  · intro config
    unfold write_ini_file
    have hbody : (fun (acc : List (List Char)) (sec : String × List (String × IniValue)) =>
        let commentLines :=
          match (fun (_ : String) => (none : Option (List Char))) sec.1 with
          | some c => ["# ".data ++ c ++ "\n".data]
          | none => []
        acc ++ commentLines ++ ["[".data ++ sec.1.data ++ "]\n".data]
          ++ ini_section_lines sec.2 ++ ["\n".data]) =
        (fun acc sec => acc ++
          (("[".data ++ sec.1.data ++ "]\n".data) ::
            ini_section_lines sec.2 ++ ["\n".data])) := by
      funext acc sec
      simp
    rw [hbody, foldl_append_flatMap
      (fun sec : String × List (String × IniValue) =>
        ("[".data ++ sec.1.data ++ "]\n".data) ::
          ini_section_lines sec.2 ++ ["\n".data]) config []]
    simp
  · intro x y zs
    simp only [format_ini_value]
    cases zs with
    | nil =>
      simp only [format_ini_join]
      intro h
      have := congrArg List.length h
      simp [List.length_append] at this
    | cons z zs2 =>
      simp only [format_ini_join]
      intro h
      have := congrArg List.length h
      simp [List.length_append] at this
  · intro s
    simp only [format_ini_value]
    intro h
    have := congrArg List.length h
    simp at this
  · intro b
    cases b <;> decide
  · intro n
    unfold format_ini_value intToChars
    by_cases hn : n < 0
    · simp [hn]
    · simp only [hn, if_false]
      exact natToChars_ne_nil n.toNat

/-- Counterexample for C10 as stated: the two-element list `[None, None]` has
every element formatting to empty, yet its own formatted value is `", "`,
which is non-empty, so the key `k` is not dropped — it is written as
`k = , `. -/
theorem claim10_counterexample :
    format_ini_value .inone = []
    ∧ format_ini_value (.ilist [.inone, .inone]) = ", ".data
    ∧ format_ini_value (.ilist [.inone, .inone]) ≠ []
    ∧ ini_section_lines [("k", .ilist [.inone, .inone])] = ["k = , \n".data] := by
  refine ⟨rfl, rfl, by decide, ?_⟩
  simp [ini_section_lines, format_ini_value, format_ini_join]

/-! ### Round-trip of `format_kb_value` and `parse_storage_value` (C8) -/

theorem dropWhile_eq_self_of_head {p : Char → Bool} (l : List Char)
    (h : ∀ c ∈ l, ¬ p c = true) : l.dropWhile p = l := by
  cases l with
  | nil => rfl
  | cons a t => rw [List.dropWhile_cons, if_neg (h a (List.mem_cons_self _ _))]

/-- Stripping a character set from a digit string followed by a suffix drawn
from that set removes exactly the suffix. -/
theorem pyStripSet_digits_append (d suf chs : List Char)
    (hd : d ≠ []) (hdn : ∀ c ∈ d, c ∉ chs) (hs : ∀ c ∈ suf, c ∈ chs) :
    pyStripSet (d ++ suf) chs = d := by
  unfold pyStripSet
  obtain ⟨c, rest, rfl⟩ : ∃ c rest, d = c :: rest := by
    cases d with
    | nil => exact absurd rfl hd
    | cons c rest => exact ⟨c, rest, rfl⟩
  have hc : c ∉ chs := hdn c (List.mem_cons_self _ _)
  rw [List.cons_append, List.dropWhile_cons, if_neg (by simpa using hc)]
  rw [List.reverse_cons, List.reverse_append, List.append_assoc]
  rw [List.dropWhile_append_of_pos
    (by intro a ha; simpa using hs a (List.mem_reverse.mp ha))]
  rw [dropWhile_eq_self_of_head _ ?hall]
  case hall =>
    intro x hx
    rcases List.mem_append.mp hx with h1 | h1
    · have : x ∈ c :: rest := List.mem_cons_of_mem _ (List.mem_reverse.mp h1)
      simpa using hdn x this
    · simp only [List.mem_singleton] at h1
      subst h1
      simpa using hc
  simp

theorem natToChars_not_mem (m : Nat) {chs : List Char}
    (hch : ∀ x ∈ chs, x.isDigit = false) : ∀ c ∈ natToChars m, c ∉ chs := by
  intro c hc hmem
  have h1 := natToChars_all_digits m c hc
  have h2 := hch c hmem
  rw [h1] at h2
  exact absurd h2 (by decide)

theorem not_suffix_digits_append (m : Nat) {pat suf : List Char} (x : Char)
    (hx : x ∈ pat) (hxd : x.isDigit = false) (hxs : x ∉ suf) :
    ¬ pat <:+ (natToChars m ++ suf) := by
  intro h
  rcases List.mem_append.mp (h.subset hx) with h1 | h1
  · have hdig := natToChars_all_digits m x h1
    rw [hdig] at hxd
    exact absurd hxd (by decide)
  · exact hxs h1

theorem parse_storage_gb (m : Nat) :
    parse_storage_value (natToChars m ++ "GB".data) = some ((m : Int) * 1048576) := by
  unfold parse_storage_value
  rw [if_pos (by simp [List.suffix_append])]
  rw [pyStripSet_digits_append _ _ _ (natToChars_ne_nil m)
    (natToChars_not_mem m (by decide)) (by intro c hc; exact hc)]
  rw [pyParseInt_natToChars]
  simp only [Option.map_some']
  congr 1
  rw [Int.fdiv_eq_ediv _ (by norm_num),
    show (1073741824 : Int) = 1024 * 1048576 by norm_num,
    show (m : Int) * (1024 * 1048576) = 1024 * ((m : Int) * 1048576) by ring]
  exact Int.mul_ediv_cancel_left _ (by norm_num)

theorem parse_storage_mb (m : Nat) :
    parse_storage_value (natToChars m ++ "MB".data) = some ((m : Int) * 1024) := by
  unfold parse_storage_value
  rw [if_neg (by
    simp only [List.isSuffixOf_iff_suffix]
    exact not_suffix_digits_append m 'G' (by decide) (by decide) (by decide))]
  rw [if_pos (by simp [List.suffix_append])]
  rw [pyStripSet_digits_append _ _ _ (natToChars_ne_nil m)
    (natToChars_not_mem m (by decide)) (by intro c hc; exact hc)]
  rw [pyParseInt_natToChars]
  simp only [Option.map_some']
  congr 1
  rw [Int.fdiv_eq_ediv _ (by norm_num),
    show (1048576 : Int) = 1024 * 1024 by norm_num,
    show (m : Int) * (1024 * 1024) = 1024 * ((m : Int) * 1024) by ring]
  exact Int.mul_ediv_cancel_left _ (by norm_num)

theorem parse_storage_kb (m : Nat) :
    parse_storage_value (natToChars m ++ "kB".data) = some ((m : Int)) := by
  unfold parse_storage_value
  rw [if_neg (by
    simp only [List.isSuffixOf_iff_suffix]
    exact not_suffix_digits_append m 'G' (by decide) (by decide) (by decide))]
  rw [if_neg (by
    simp only [List.isSuffixOf_iff_suffix]
    exact not_suffix_digits_append m 'M' (by decide) (by decide) (by decide))]
  rw [pyStripSet_digits_append _ _ _ (natToChars_ne_nil m)
    (natToChars_not_mem m (by decide)) (by intro c hc; exact hc)]
  rw [pyParseInt_natToChars]

/-- C8: for every non-negative kilobyte count, parsing the formatted value
round-trips: `parse_storage_value (format_kb_value v) = v`. -/
theorem claim8_roundtrip (v : Int) (hv : 0 ≤ v) :
    parse_storage_value (format_kb_value v) = some v := by
  by_cases h0 : v = 0
  · subst h0
    decide
  unfold format_kb_value
  rw [if_neg h0]
  by_cases hG : v.fmod 1048576 = 0
  · rw [if_pos hG]
    have hq : 0 ≤ v.fdiv 1048576 := by
      rw [Int.fdiv_eq_ediv _ (by norm_num)]
      exact Int.ediv_nonneg hv (by norm_num)
    have hi : intToChars (v.fdiv 1048576) = natToChars (v.fdiv 1048576).toNat := by
      unfold intToChars
      rw [if_neg (by omega)]
    rw [hi, parse_storage_gb]
    congr 1
    rw [Int.toNat_of_nonneg hq]
    have hsum := Int.fmod_add_fdiv v 1048576
    rw [hG] at hsum
    linarith
  · rw [if_neg hG]
    by_cases hM : v.fmod 1024 = 0
    · rw [if_pos hM]
      have hq : 0 ≤ v.fdiv 1024 := by
        rw [Int.fdiv_eq_ediv _ (by norm_num)]
        exact Int.ediv_nonneg hv (by norm_num)
      have hi : intToChars (v.fdiv 1024) = natToChars (v.fdiv 1024).toNat := by
        unfold intToChars
        rw [if_neg (by omega)]
      rw [hi, parse_storage_mb]
      congr 1
      rw [Int.toNat_of_nonneg hq]
      have hsum := Int.fmod_add_fdiv v 1024
      rw [hM] at hsum
      linarith
    · rw [if_neg hM]
      have hi : intToChars v = natToChars v.toNat := by
        unfold intToChars
        rw [if_neg (by omega)]
      rw [hi, parse_storage_kb, Int.toNat_of_nonneg hv]

/-- Witness for C8: the value 1536 kB formats to `1536kB` (not divisible by
1024) and parses back to 1536. -/
theorem claim8_roundtrip_witness :
    (0 : Int) ≤ 1536 ∧ parse_storage_value (format_kb_value 1536) = some 1536 :=
  ⟨by decide, claim8_roundtrip 1536 (by decide)⟩

end Autopg
